import Mathlib

set_option maxRecDepth 8000

/-!
Verification development for the StilBAR-Converter repository.

The definitions below are a shallow embedding of the Python sources:
  - `hash_compound_manager.py` (class `HashCompoundManager`), and
  - `fixed_smiles_generator.py` (class `FixedSMILESGenerator`).
Python dictionaries are modelled as association lists in insertion order
(which is exactly the iteration order of a Python `dict`); machine hashing
(`hashlib.sha256`) is modelled by a full SHA-256 implementation over byte
lists, with `Nat` arithmetic taken modulo 2^32 where the algorithm works
on 32-bit words.
-/

/-! ### Python-style string helpers -/

/-- Whitespace characters removed by Python `str.strip()` (ASCII part). -/
def isPySpace (c : Char) : Bool :=
  c == ' ' || c == '\t' || c == '\n' || c == '\r' || c == '\x0b' || c == '\x0c'

def pyStripChars (l : List Char) : List Char :=
  ((l.dropWhile isPySpace).reverse.dropWhile isPySpace).reverse

/-- Python `s.strip()`. -/
def pyStrip (s : String) : String := ⟨pyStripChars s.data⟩

/-- Python `s.replace(' ', '')`: removes every space character. -/
def removeSpaces (s : String) : String := ⟨s.data.filter (fun c => c != ' ')⟩

/-- Python `s.replace('-', '–')`: plain hyphen to en-dash. -/
def dashToEn (s : String) : String := ⟨s.data.map (fun c => if c == '-' then '–' else c)⟩

/-- `leadsWith p l` is true when the list `p` occurs at the front of `l`. -/
def leadsWith : List Char → List Char → Bool
  | [], _ => true
  | _ :: _, [] => false
  | a :: as, b :: bs => a == b && leadsWith as bs

/-- Python `needle in hay` on strings: substring containment. -/
def occursIn (needle : List Char) : List Char → Bool
  | [] => needle.isEmpty
  | b :: bs => leadsWith needle (b :: bs) || occursIn needle bs

/-- Python `s.startswith(p)`. -/
def startsW (s p : String) : Bool := leadsWith p.data s.data

/-- Python `s.endswith(p)`. -/
def endsW (s p : String) : Bool := leadsWith p.data.reverse s.data.reverse

/-- Fuel-driven core of Python `s.replace(old, new)` (non-overlapping,
left to right).  The fuel is the length of the subject list, which is
enough because every step consumes at least one character when the
pattern is nonempty (the only way the source uses it). -/
def listReplaceAux (pat rep : List Char) : Nat → List Char → List Char
  | 0, s => s
  | _, [] => []
  | fuel + 1, c :: cs =>
      if leadsWith pat (c :: cs) then
        rep ++ listReplaceAux pat rep fuel ((c :: cs).drop pat.length)
      else
        c :: listReplaceAux pat rep fuel cs

/-- Python `s.replace(old, new)` for a nonempty pattern. -/
def strReplace (s pat rep : String) : String :=
  ⟨listReplaceAux pat.data rep.data s.data.length s.data⟩

/-- Digit-string parser used inside Python `int(...)`. -/
def digitsToNat : List Char → Option Nat
  | [] => none
  | l =>
      l.foldl
        (fun acc c =>
          acc.bind fun a => if c.isDigit then some (a * 10 + (c.toNat - 48)) else none)
        (some 0)

/-- Python `int(s)` on an already-stripped string: optional sign followed by
decimal digits.  (Python additionally accepts underscore group separators
and unicode digits; those never occur in this repository's data.) -/
def pyInt (s : String) : Option Int :=
  match s.data with
  | '-' :: rest => (digitsToNat rest).map (fun n => -(n : Int))
  | '+' :: rest => (digitsToNat rest).map (fun n => (n : Int))
  | l => (digitsToNat l).map (fun n => (n : Int))

/-! ### SHA-256 (the model of `hashlib.sha256`)

All word values are `Nat`s kept below `2 ^ 32`; `wmask` is the explicit
`% 2 ^ 32` applied wherever 32-bit overflow matters.  The bitwise
operations are implemented by structural recursion over the 32 bit
positions so that every computation reduces inside the kernel. -/

def wmask (x : Nat) : Nat := x % 4294967296

/-- Combine the corresponding bits of two 32-bit words with `f`
(each argument of `f` is the current low bit, `0` or `1`). -/
def bitzip (f : Nat → Nat → Nat) : Nat → Nat → Nat → Nat
  | 0, _, _ => 0
  | fuel + 1, a, b => f (a % 2) (b % 2) + 2 * bitzip f fuel (a / 2) (b / 2)

def xor32 (a b : Nat) : Nat := bitzip (fun x y => (x + y) % 2) 32 a b

def and32 (a b : Nat) : Nat := bitzip (fun x y => x * y) 32 a b

def not32 (a : Nat) : Nat := 4294967295 - a % 4294967296

def shr32 (n x : Nat) : Nat := x / 2 ^ n

def rotr32 (n x : Nat) : Nat := wmask (x / 2 ^ n + x % 2 ^ n * 2 ^ (32 - n))

def chF (e f g : Nat) : Nat := xor32 (and32 e f) (and32 (not32 e) g)

def majF (a b c : Nat) : Nat := xor32 (xor32 (and32 a b) (and32 a c)) (and32 b c)

def bsig0 (x : Nat) : Nat := xor32 (xor32 (rotr32 2 x) (rotr32 13 x)) (rotr32 22 x)

def bsig1 (x : Nat) : Nat := xor32 (xor32 (rotr32 6 x) (rotr32 11 x)) (rotr32 25 x)

def ssig0 (x : Nat) : Nat := xor32 (xor32 (rotr32 7 x) (rotr32 18 x)) (shr32 3 x)

def ssig1 (x : Nat) : Nat := xor32 (xor32 (rotr32 17 x) (rotr32 19 x)) (shr32 10 x)

/-- The 64 SHA-256 round constants of FIPS 180-4 (the fractional parts
of the cube roots of the first 64 primes), written in decimal. -/
def sha256K : List Nat :=
  [1116352408, 1899447441, 3049323471, 3921009573, 961987163, 1508970993,
   2453635748, 2870763221, 3624381080, 310598401, 607225278, 1426881987,
   1925078388, 2162078206, 2614888103, 3248222580, 3835390401, 4022224774,
   264347078, 604807628, 770255983, 1249150122, 1555081692, 1996064986,
   2554220882, 2821834349, 2952996808, 3210313671, 3336571891, 3584528711,
   113926993, 338241895, 666307205, 773529912, 1294757372, 1396182291,
   1695183700, 1986661051, 2177026350, 2456956037, 2730485921, 2820302411,
   3259730800, 3345764771, 3516065817, 3600352804, 4094571909, 275423344,
   430227734, 506948616, 659060556, 883997877, 958139571, 1322822218,
   1537002063, 1747873779, 1955562222, 2024104815, 2227730452, 2361852424,
   2428436474, 2756734187, 3204031479, 3329325298]
/-- The eight 32-bit working variables of SHA-256. -/
structure H8 where
  a : Nat
  b : Nat
  c : Nat
  d : Nat
  e : Nat
  f : Nat
  g : Nat
  h : Nat
deriving DecidableEq

def sha256H0 : H8 :=
  ⟨1779033703, 3144134277, 1013904242, 2773480762,
   1359893119, 2600822924, 528734635, 1541459225⟩

/-- Split a list into chunks of `k` elements (fuel-driven). -/
def chunkifyAux (k : Nat) : Nat → List Nat → List (List Nat)
  | 0, _ => []
  | _, [] => []
  | fuel + 1, x :: xs => (x :: xs).take k :: chunkifyAux k fuel ((x :: xs).drop k)

def chunkify (k : Nat) (l : List Nat) : List (List Nat) := chunkifyAux k l.length l

/-- Assemble four big-endian bytes into one 32-bit word. -/
def word4 (ch : List Nat) : Nat :=
  ch.getD 0 0 * 16777216 + ch.getD 1 0 * 65536 + ch.getD 2 0 * 256 + ch.getD 3 0

/-- Extend the 16 message words to the 64-entry message schedule. -/
def msgSchedule (w0 : List Nat) : List Nat :=
  (List.range 48).foldl
    (fun w i =>
      w ++ [wmask (ssig1 (w.getD (i + 14) 0) + w.getD (i + 9) 0
                    + ssig0 (w.getD (i + 1) 0) + w.getD i 0)])
    w0

def sha256Round (st : H8) (kw : Nat × Nat) : H8 :=
  let t1 := wmask (st.h + bsig1 st.e + chF st.e st.f st.g + kw.1 + kw.2)
  let t2 := wmask (bsig0 st.a + majF st.a st.b st.c)
  ⟨wmask (t1 + t2), st.a, st.b, st.c, wmask (st.d + t1), st.e, st.f, st.g⟩

def sha256Block (st : H8) (block : List Nat) : H8 :=
  let w := msgSchedule ((chunkify 4 block).map word4)
  let fin := (sha256K.zip w).foldl sha256Round st
  ⟨wmask (st.a + fin.a), wmask (st.b + fin.b), wmask (st.c + fin.c), wmask (st.d + fin.d),
   wmask (st.e + fin.e), wmask (st.f + fin.f), wmask (st.g + fin.g), wmask (st.h + fin.h)⟩

/-- SHA-256 padding: `0x80`, zeros to 56 mod 64, then the 64-bit
big-endian bit length. -/
def sha256Pad (msg : List Nat) : List Nat :=
  msg ++ [128] ++ List.replicate ((120 - (msg.length + 1) % 64) % 64) 0
      ++ (List.range 8).map (fun i => 8 * msg.length / 2 ^ (56 - 8 * i) % 256)

/-- The eight final hash words of SHA-256 over a byte list. -/
def sha256Words (msg : List Nat) : List Nat :=
  let st := (chunkify 64 (sha256Pad msg)).foldl sha256Block sha256H0
  [st.a, st.b, st.c, st.d, st.e, st.f, st.g, st.h]

def hexChar (n : Nat) : Char := if n < 10 then Char.ofNat (48 + n) else Char.ofNat (87 + n)

/-- Fixed-width lowercase hex rendering (`d` digits, most significant first). -/
def toHexFixed (v : Nat) : Nat → List Char
  | 0 => []
  | d + 1 => toHexFixed (v / 16) d ++ [hexChar (v % 16)]

/-- The 64-character lowercase hex digest of SHA-256, as `hexdigest()` returns it. -/
def sha256HexChars (msg : List Nat) : List Char :=
  (sha256Words msg).foldr (fun w acc => toHexFixed w 8 ++ acc) []

/-- UTF-8 encoding of one character. -/
def utf8Char (c : Char) : List Nat :=
  let n := c.toNat
  if n < 128 then [n]
  else if n < 2048 then [192 + n / 64, 128 + n % 64]
  else if n < 65536 then [224 + n / 4096, 128 + n / 64 % 64, 128 + n % 64]
  else [240 + n / 262144, 128 + n / 4096 % 64, 128 + n / 64 % 64, 128 + n % 64]

/-- Python `s.encode('utf-8')` as a byte list. -/
def utf8Bytes (s : String) : List Nat :=
  s.data.foldr (fun c acc => utf8Char c ++ acc) []

/-! ### Association lists modelling Python dicts (insertion order preserved) -/

def lookupA {β : Type} : List (String × β) → String → Option β
  | [], _ => none
  | (a, b) :: rest, k => if a = k then some b else lookupA rest k

/-- Python `d[k] = v`: replace the value in place when the key exists,
append at the end otherwise (dict insertion order). -/
def dictInsert {β : Type} : List (String × β) → String → β → List (String × β)
  | [], k, v => [(k, v)]
  | (a, b) :: rest, k, v => if a = k then (a, v) :: rest else (a, b) :: dictInsert rest k v

/-- Python `del d[k]` on a dict (keys unique): drop the first entry with key `k`. -/
def dictRemove {β : Type} : List (String × β) → String → List (String × β)
  | [], _ => []
  | (a, b) :: rest, k => if a = k then rest else (a, b) :: dictRemove rest k

/-! ### `hash_compound_manager.py` -/

/-- `HashCompoundManager.generate_hash` (lines 20-28): normalize the code
(strip, drop internal spaces, hyphen to en-dash), join with `|` and the
stripped name, SHA-256, first 8 hex characters. -/
def generate_hash (stilbar_code : String) (compound_name : String) : String :=
  let clean_stilbar := dashToEn (removeSpaces (pyStrip stilbar_code))
  let combined := clean_stilbar ++ "|" ++ pyStrip compound_name
  ⟨(sha256HexChars (utf8Bytes combined)).take 8⟩

/-- One entry of `self.compounds` (the dict stored per hash). -/
structure CompoundData where
  hash : String
  name : String
  stilbar : String
  smiles : String
  original_num : String
deriving DecidableEq

/-- The in-memory index: `self.compounds` and `self.stilbar_to_hash`. -/
structure Mem where
  compounds : List (String × CompoundData)
  stilbar_to_hash : List (String × String)
deriving DecidableEq

/-- One data row of the four-column CSV (missing fields read as `""`,
matching `csv.DictReader` + falsy checks in the source). -/
structure Row4 where
  num : String
  name : String
  stilbar : String
  smiles : String
deriving DecidableEq

/-- In-process manager state plus the backing CSV file and its
`.backup` sibling (data rows; the header is implicit). -/
structure SysState where
  mem : Mem
  file : List Row4
  backup : Option (List Row4)
deriving DecidableEq

/-- The body of the row loop of `load_compounds` (lines 40-63).
A row is skipped when `row.get(num)` or `row.get(smiles)` is falsy. -/
def loadStep (mem : Mem) (row : Row4) : Mem :=
  if row.num = "" ∨ row.smiles = "" then mem
  else
    let stilbar_code := pyStrip row.stilbar
    let compound_name := pyStrip row.name
    let smiles := pyStrip row.smiles
    let hash_key :=
      generate_hash (if stilbar_code ≠ "" then stilbar_code else compound_name) compound_name
    let cd : CompoundData := ⟨hash_key, compound_name, stilbar_code, smiles, row.num⟩
    ⟨dictInsert mem.compounds hash_key cd,
     if stilbar_code ≠ "" then dictInsert mem.stilbar_to_hash stilbar_code hash_key
     else mem.stilbar_to_hash⟩

/-- `load_compounds` (lines 30-70): `none` models a missing file
(the error is caught; the store stays empty), `some rows` the parsed CSV data rows. -/
def load_compounds : Option (List Row4) → Mem
  | none => ⟨[], []⟩
  | some rows => rows.foldl loadStep ⟨[], []⟩

/-- `get_compound_by_stilbar` (lines 72-81).  The source tests the found
hash for Python truthiness before the second lookup. -/
def get_compound_by_stilbar (mem : Mem) (stilbar_code : String) : Option CompoundData :=
  match lookupA mem.stilbar_to_hash stilbar_code with
  | some hash_key => if hash_key = "" then none else lookupA mem.compounds hash_key
  | none => none

/-- `get_compound_by_hash` (lines 83-85). -/
def get_compound_by_hash (mem : Mem) (hash_key : String) : Option CompoundData :=
  lookupA mem.compounds hash_key

/-- Outcome of `add_compound`: a returned hash or a raised exception,
together with the state the object is left in either way. -/
inductive AddRes where
  | ok (hash_key : String) (st : SysState)
  | err (msg : String) (st : SysState)
deriving DecidableEq

def AddRes.state : AddRes → SysState
  | .ok _ st => st
  | .err _ st => st

def AddRes.isOk : AddRes → Bool
  | .ok _ _ => true
  | .err _ _ => false

/-- `add_compound` (lines 87-113) followed by `_add_to_csv` (171-195).
`writeOk = false` models an I/O failure at the CSV write: the exception
propagates, but the in-memory index was already updated (the source
mutates `self.compounds` before calling `_add_to_csv`).  The exact
Python message quotes the code; the quotes are omitted here. -/
def add_compound (sys : SysState) (name stilbar_code smiles : String) (writeOk : Bool) : AddRes :=
  let hash_key := generate_hash stilbar_code name
  if (lookupA sys.mem.compounds hash_key).isSome then
    .err ("Compound with StilBAR code " ++ stilbar_code ++ " already exists (hash: "
          ++ hash_key ++ ")") sys
  else
    let cd : CompoundData :=
      ⟨hash_key, name, stilbar_code, smiles, toString (sys.mem.compounds.length + 1)⟩
    let mem1 : Mem :=
      ⟨dictInsert sys.mem.compounds hash_key cd,
       if stilbar_code ≠ "" then dictInsert sys.mem.stilbar_to_hash stilbar_code hash_key
       else sys.mem.stilbar_to_hash⟩
    if writeOk then
      .ok hash_key ⟨mem1, sys.file ++ [⟨hash_key, name, stilbar_code, smiles⟩], sys.backup⟩
    else
      .err "Failed to add to CSV: write error" ⟨mem1, sys.file, sys.backup⟩

/-- One entry of `result['deleted_compounds']`. -/
structure DelEntry where
  hash : String
  name : String
  stilbar : String
deriving DecidableEq

/-- The `result` dict of `delete_compounds`. -/
structure DelResult where
  success : Bool
  deleted_count : Nat
  deleted_compounds : List DelEntry
  errors : List String
deriving DecidableEq

/-- The in-memory removal loop of `delete_compounds` (lines 147-159).
deleting an absent key from `self.compounds` raises `KeyError` when the key is
absent; the first component carries that exception (caught by the
enclosing handler), and the partial state reached so far is kept. -/
def delLoop : List CompoundData → Mem → List DelEntry → Option String × Mem × List DelEntry
  | [], mem, acc => (none, mem, acc)
  | c :: rest, mem, acc =>
      if (lookupA mem.compounds c.hash).isSome then
        let mem1 : Mem :=
          ⟨dictRemove mem.compounds c.hash,
           if c.stilbar ≠ "" ∧ (lookupA mem.stilbar_to_hash c.stilbar).isSome then
             dictRemove mem.stilbar_to_hash c.stilbar
           else mem.stilbar_to_hash⟩
        delLoop rest mem1 (acc ++ [⟨c.hash, c.name, c.stilbar⟩])
      else (some ("KeyError: " ++ c.hash), mem, acc)

/-- Row filter of `_remove_from_csv` (lines 224-246): a CSV row is dropped
when its stripped name, barcode and smiles match a compound to delete. -/
def rowMatchesTriple (r : Row4) (t : String × String × String) : Bool :=
  pyStrip r.name == t.1 && pyStrip r.stilbar == t.2.1 && pyStrip r.smiles == t.2.2

def csvFilter (file : List Row4) (triples : List (String × String × String)) : List Row4 :=
  file.filter (fun r => !(triples.any (rowMatchesTriple r)))

/-- The name/barcode/smiles triples `_remove_from_csv` collects for the
requested hashes (lines 211-220). -/
def delTriples (mem : Mem) (hash_keys : List String) : List (String × String × String) :=
  hash_keys.filterMap
    (fun k => (lookupA mem.compounds k).map (fun c => (c.name, c.stilbar, c.smiles)))

/-- `delete_compounds` (lines 115-169) with `_remove_from_csv` (197-259).
`writeOk = false` models an I/O failure at the write of the filtered
table (the backup copy was already made); the exception is caught and
reported in `errors`.  Note the source rewrites the CSV before touching
the in-memory index. -/
def delete_compounds (sys : SysState) (hash_keys : List String) (writeOk : Bool) :
    DelResult × SysState :=
  let compounds_to_delete := hash_keys.filterMap (fun k => lookupA sys.mem.compounds k)
  let errors0 := hash_keys.filterMap
      (fun k =>
        if (lookupA sys.mem.compounds k).isSome then none
        else some ("Hash not found: " ++ k))
  if compounds_to_delete.isEmpty then
    (⟨false, 0, [], errors0 ++ ["No valid compounds found to delete"]⟩, sys)
  else
    let sys1 : SysState := ⟨sys.mem, sys.file, some sys.file⟩
    if writeOk then
      let file1 := csvFilter sys1.file (delTriples sys1.mem hash_keys)
      match delLoop compounds_to_delete sys1.mem [] with
      | (none, mem1, entries) =>
          (⟨true, compounds_to_delete.length, entries, errors0⟩, ⟨mem1, file1, some sys.file⟩)
      | (some msg, mem1, entries) =>
          (⟨false, 0, entries, errors0 ++ ["Exception during deletion: " ++ msg]⟩,
           ⟨mem1, file1, some sys.file⟩)
    else
      (⟨false, 0, [], errors0 ++ ["Exception during deletion: write error"]⟩, sys1)

/-! ### `fixed_smiles_generator.py` -/

/-- One entry of `self.compound_info`.  Entries stored without the
`is_duplicate` key are modelled with `is_duplicate = false`. -/
structure CInfo where
  number : Int
  name : String
  barcode : String
  smiles : String
  is_duplicate : Bool
deriving DecidableEq

/-- The metadata dict returned by `generate_smiles`: successes carry
`type/smiles/confidence/method/compound_number/compound_name` (plus an
optional `note`), failures carry `error/confidence/method` and the two
table sizes.  The float confidences 1.0 / 0.8 / 0.0 are modelled as
exact rationals. -/
inductive Metadata where
  | found (mtype : String) (smiles : String) (confidence : ℚ) (method : String)
      (compound_number : String) (compound_name : String) (note : Option String)
  | notFound (error : String) (confidence : ℚ) (method : String)
      (available_compounds : Nat) (available_barcodes : Nat)
deriving DecidableEq

def mconf : Metadata → ℚ
  | .found _ _ c _ _ _ _ => c
  | .notFound _ c _ _ _ => c

def mmethod : Metadata → String
  | .found _ _ _ m _ _ _ => m
  | .notFound _ _ m _ _ => m

/-- `FixedSMILESGenerator`'s three dicts. -/
structure Generator where
  compound_number_to_smiles : List (String × String)
  barcode_to_smiles : List (String × String)
  compound_info : List (String × CInfo)
deriving DecidableEq

/-- `info.get('number', 'Unknown')`, rendered as the string that ends up
in the metadata (the source stores the int itself). -/
def infoNum : Option CInfo → String
  | some i => toString i.number
  | none => "Unknown"

def infoName : Option CInfo → String
  | some i => i.name
  | none => "Unknown"

/-- The source's float confidence `0.8`, as the exact rational 4/5
(given as an explicit numerator/denominator pair so that every
comparison reduces inside the kernel). -/
def conf08 : ℚ := ⟨4, 5, by decide, by decide⟩

/-- Method 1 (lines 100-114): direct barcode lookup. -/
def tryExact (g : Generator) (clean_code : String) : Option (Option String × Metadata) :=
  (lookupA g.barcode_to_smiles clean_code).map fun smiles =>
    (some smiles,
     .found "exact_match" smiles 1 "barcode_lookup"
       (infoNum (lookupA g.compound_info clean_code))
       (infoName (lookupA g.compound_info clean_code)) none)

/-- Method 1b (lines 116-131): retry with hyphens turned into en-dashes. -/
def tryNormalized (g : Generator) (clean_code normalized_code : String) :
    Option (Option String × Metadata) :=
  if normalized_code ≠ clean_code then
    (lookupA g.barcode_to_smiles normalized_code).map fun smiles =>
      (some smiles,
       .found "exact_match" smiles 1 "barcode_lookup_normalized"
         (infoNum (lookupA g.compound_info normalized_code))
         (infoName (lookupA g.compound_info normalized_code))
         (some "Converted regular hyphens (-) to en-dashes (–)"))
  else none

/-- Method 1c (lines 133-150): bracketed fragment, first stored barcode
containing the raw or the normalized input as a substring. -/
def tryFragment (g : Generator) (clean_code normalized_code : String) :
    Option (Option String × Metadata) :=
  if startsW clean_code "|" && endsW clean_code "|" then
    (g.barcode_to_smiles.find? fun p =>
        occursIn clean_code.data p.1.data || occursIn normalized_code.data p.1.data).map fun p =>
      (some p.2,
       .found "partial_match" p.2 conf08 "partial_barcode_match"
         (infoNum (lookupA g.compound_info p.1)) (infoName (lookupA g.compound_info p.1))
         (some ("Partial match: found \"" ++ clean_code ++ "\" in \"" ++ p.1 ++ "\"")))
  else none

/-- Method 2 (lines 152-166): compound-number lookup. -/
def tryNumber (g : Generator) (clean_code : String) : Option (Option String × Metadata) :=
  (lookupA g.compound_number_to_smiles clean_code).map fun smiles =>
    (some smiles,
     .found "exact_match" smiles 1 "compound_number_lookup"
       (infoNum (lookupA g.compound_info clean_code))
       (infoName (lookupA g.compound_info clean_code)) none)

/-- Method 3 (lines 168-185): first key of the form `clean_code + "_cpd…"`.
Dict keys are unique, so the first matching entry is the entry the source
reads back with `self.barcode_to_smiles[key]`. -/
def tryDupKey (g : Generator) (clean_code : String) : Option (Option String × Metadata) :=
  (g.barcode_to_smiles.find? fun p => leadsWith (clean_code ++ "_cpd").data p.1.data).map fun p =>
    (some p.2,
     .found "exact_match" p.2 1 "duplicate_barcode_lookup"
       (infoNum (lookupA g.compound_info p.1)) (infoName (lookupA g.compound_info p.1))
       (some ("Duplicate barcode resolved to compound " ++ infoNum (lookupA g.compound_info p.1))))

/-- Method 4 (lines 187-206): inputs of the form `compound_N`. -/
def tryCpd (g : Generator) (clean_code : String) : Option (Option String × Metadata) :=
  if startsW clean_code "compound_" then
    let num_str := strReplace clean_code "compound_" ""
    (lookupA g.compound_number_to_smiles num_str).map fun smiles =>
      (some smiles,
       .found "exact_match" smiles 1 "compound_prefix_lookup"
         (infoNum (lookupA g.compound_info num_str))
         (infoName (lookupA g.compound_info num_str)) none)
  else none

/-- The `basic_monomers` table of Method 5 (lines 209-216). -/
def basic_monomers (g : Generator) : List (String × String) :=
  [("H", (lookupA g.compound_number_to_smiles "1").getD "OC1=CC(O)=CC(CCC2=CC=C(O)C=C2)=C1"),
   ("T", "c1cc(O)cc(c1)C=Cc2cc(O)cc(O)c2"),
   ("C", "c1cc(O)cc(c1)C=Cc2cc(O)cc(O)c2"),
   ("P", "COc1cc(CCc2cc(O)cc(O)c2)cc(O)c1"),
   ("M", "COc1cc(O)cc(c1)CCc2cc(O)cc(O)c2"),
   ("X", "c1cc(O)cc(c1)CCc2cc(O)cc(OC)c2")]

/-- Method 5 (lines 208-228): single-letter monomer fallback. -/
def tryMonomer (g : Generator) (clean_code : String) : Option (Option String × Metadata) :=
  (lookupA (basic_monomers g) clean_code).map fun smiles =>
    (some smiles,
     .found "exact_match" smiles 1 "basic_monomer_lookup" "Basic"
       ("Basic monomer " ++ clean_code) none)

/-- The not-found result (lines 230-237). -/
def noResult (g : Generator) (clean_code : String) : Option String × Metadata :=
  (none,
   .notFound ("Input \"" ++ clean_code ++ "\" not found") 0 "lookup_failed"
     g.compound_number_to_smiles.length g.barcode_to_smiles.length)

/-- `generate_smiles` (lines 89-237).  Each `tryX` is the direct
translation of the corresponding numbered method of the source; the
match chain mirrors its sequence of early returns. -/
def generate_smiles (g : Generator) (input_code : String) : Option String × Metadata :=
  let clean_code := removeSpaces (pyStrip input_code)
  let normalized_code := dashToEn clean_code
  match tryExact g clean_code with
  | some r => r
  | none =>
  match tryNormalized g clean_code normalized_code with
  | some r => r
  | none =>
  match tryFragment g clean_code normalized_code with
  | some r => r
  | none =>
  match tryNumber g clean_code with
  | some r => r
  | none =>
  match tryDupKey g clean_code with
  | some r => r
  | none =>
  match tryCpd g clean_code with
  | some r => r
  | none =>
  match tryMonomer g clean_code with
  | some r => r
  | none => noResult g clean_code

/-- The body of the CSV row loop of `_load_all_62_compounds` (lines 31-78):
rows shorter than four fields or with a falsy first field are skipped,
`int()` failures are skipped, and duplicate barcodes get a suffixed key. -/
def genStep (g : Generator) (row : List String) : Generator :=
  match row with
  | r0 :: r1 :: r2 :: r3 :: _ =>
      if pyStrip r0 = "" then g
      else
        match pyInt (pyStrip r0) with
        | none => g
        | some num =>
            let name := pyStrip r1
            let barcode := pyStrip r2
            let smiles := pyStrip r3
            if num ≠ 0 ∧ smiles ≠ "" then
              let g1 : Generator :=
                ⟨dictInsert g.compound_number_to_smiles (toString num) smiles,
                 g.barcode_to_smiles,
                 dictInsert g.compound_info ("compound_" ++ toString num)
                   ⟨num, name, barcode, smiles, false⟩⟩
              if barcode ≠ "" then
                if (lookupA g1.barcode_to_smiles barcode).isSome then
                  let ub := barcode ++ "_cpd" ++ toString num
                  ⟨g1.compound_number_to_smiles,
                   dictInsert g1.barcode_to_smiles ub smiles,
                   dictInsert g1.compound_info ub ⟨num, name, barcode, smiles, true⟩⟩
                else
                  ⟨g1.compound_number_to_smiles,
                   dictInsert g1.barcode_to_smiles barcode smiles,
                   dictInsert g1.compound_info barcode ⟨num, name, barcode, smiles, false⟩⟩
              else g1
            else g
  | _ => g

/-- `_load_all_62_compounds` applied to the data rows of the CSV that was
found (the header row is already skipped by the source). -/
def loadGen (rows : List (List String)) : Generator := rows.foldl genStep ⟨[], [], []⟩

/-! ### Definitions used to state the claims -/

/-- A lowercase hexadecimal digit. -/
def isHexCh (c : Char) : Bool := ('0' ≤ c && c ≤ '9') || ('a' ≤ c && c ≤ 'f')

/-- The normalized-(code,name) hash key `load_compounds` computes for a row. -/
def loadHashOf (r : Row4) : String :=
  generate_hash (if pyStrip r.stilbar ≠ "" then pyStrip r.stilbar else pyStrip r.name)
    (pyStrip r.name)

/-- First successful entry of a list of strategy outcomes. -/
def firstSome {α : Type} : List (Option α) → Option α
  | [] => none
  | o :: rest => match o with | some r => some r | none => firstSome rest

/-- The seven lookup strategies of the source, in source order. -/
def stratList (g : Generator) (input_code : String) :
    List (Option (Option String × Metadata)) :=
  let clean_code := removeSpaces (pyStrip input_code)
  let normalized_code := dashToEn clean_code
  [tryExact g clean_code, tryNormalized g clean_code normalized_code,
   tryFragment g clean_code normalized_code, tryNumber g clean_code,
   tryDupKey g clean_code, tryCpd g clean_code, tryMonomer g clean_code]

/-- The six strategies named by the claim, in the claim's order (the claim
omits the `compound_N`-input strategy of the source). -/
def claimedStrats (g : Generator) (input_code : String) :
    List (Option (Option String × Metadata)) :=
  let clean_code := removeSpaces (pyStrip input_code)
  let normalized_code := dashToEn clean_code
  [tryExact g clean_code, tryNormalized g clean_code normalized_code,
   tryFragment g clean_code normalized_code, tryNumber g clean_code,
   tryDupKey g clean_code, tryMonomer g clean_code]

/-- The resolver the claim describes: the six claimed strategies in their
fixed priority order, not-found only when all of them fail. -/
def claimedResolve (g : Generator) (input_code : String) : Option String × Metadata :=
  (firstSome (claimedStrats g input_code)).getD (noResult g (removeSpaces (pyStrip input_code)))

/-- Claim C1 as stated: the resolver equals the six-strategy cascade. -/
def c1Claim : Prop := ∀ (g : Generator) (input_code : String),
  generate_smiles g input_code = claimedResolve g input_code

/-- Claim C3 as stated: for every triple whose identity is fresh, `add`
followed by a lookup of the code returns the added structure. -/
def c3Claim : Prop :=
  ∀ (sys : SysState) (name code smiles : String),
    lookupA sys.mem.compounds (generate_hash code name) = none →
      (get_compound_by_stilbar (add_compound sys name code smiles true).state.mem code).map
          (fun d => d.smiles) = some smiles

/-- Claim C5 as stated: a failed table write never leaves the in-memory
index in the post-mutation state, for `add` as well as for `delete`. -/
def c5Claim : Prop :=
  (∀ (sys : SysState) (name code smiles : String),
     (add_compound sys name code smiles false).state.mem = sys.mem)
  ∧ (∀ (sys : SysState) (hash_keys : List String),
       (delete_compounds sys hash_keys false).2.mem = sys.mem)

/-- Claim C7 as stated for a generator `g`: a purely numeric input is a
1-based position into the stable order of `compound_number_to_smiles`,
and an in-range position returns that record with confidence 1. -/
def c7Claim (g : Generator) : Prop :=
  ∀ s : String, s ≠ "" → s.data.all Char.isDigit = true →
    ∀ k : Int, pyInt s = some k → 1 ≤ k →
      ∀ p : String × String, g.compound_number_to_smiles[k.toNat - 1]? = some p →
        (generate_smiles g s).1 = some p.2 ∧ mconf (generate_smiles g s).2 = 1

/-- Claim C8 as stated: a missing file yields an empty store, and every
row that is not missing (code-or-name and structure) is loaded. -/
def c8Claim : Prop :=
  load_compounds none = ⟨[], []⟩
  ∧ ∀ (rows : List Row4) (r : Row4), r ∈ rows →
      ¬((r.stilbar = "" ∧ r.name = "") ∧ r.smiles = "") →
        ∃ p ∈ (load_compounds (some rows)).compounds,
          p.2.smiles = pyStrip r.smiles ∧ p.2.name = pyStrip r.name

/-- Reachable-state invariant of the manager: every compound is indexed
under its own hash field, and the index keys are distinct (they are the
keys of a Python dict). -/
def WFMem (m : Mem) : Prop :=
  (∀ p ∈ m.compounds, p.2.hash = p.1) ∧ (m.compounds.map Prod.fst).Nodup

/-- The 62-row table of the claim's concrete scenario: compound numbers
1..62 in order, no barcodes. -/
def rows62 : List (List String) :=
  (List.range 62).map fun i =>
    [toString (i + 1), "name" ++ toString (i + 1), "", "S" ++ toString (i + 1)]

def gen62 : Generator := loadGen rows62

/-! ### Lemmas about the dict model -/

theorem lookupA_dictInsert_self {β : Type} (m : List (String × β)) (k : String) (v : β) :
    lookupA (dictInsert m k v) k = some v := by
  induction m with
  | nil => simp [dictInsert, lookupA]
  | cons p rest ih =>
      obtain ⟨a, b⟩ := p
      by_cases h : a = k
      · simp [dictInsert, h, lookupA]
      · simp [dictInsert, h, lookupA, ih]

theorem lookupA_dictInsert_ne {β : Type} (m : List (String × β)) (k k' : String) (v : β)
    (h : k' ≠ k) : lookupA (dictInsert m k v) k' = lookupA m k' := by
  induction m with
  | nil => simp [dictInsert, lookupA, Ne.symm h]
  | cons p rest ih =>
      obtain ⟨a, b⟩ := p
      by_cases ha : a = k
      · subst ha
        simp [dictInsert, lookupA, Ne.symm h]
      · by_cases ha' : a = k'
        · simp [dictInsert, ha, lookupA, ha', h]
        · simp [dictInsert, ha, lookupA, ha', ih]

theorem lookupA_isSome_dictInsert {β : Type} (m : List (String × β)) (k k' : String) (v : β)
    (h : (lookupA m k').isSome = true) :
    (lookupA (dictInsert m k v) k').isSome = true := by
  by_cases e : k' = k
  · subst e; rw [lookupA_dictInsert_self]; rfl
  · rw [lookupA_dictInsert_ne _ _ _ _ e]; exact h

theorem lookupA_eq_none_iff {β : Type} (m : List (String × β)) (k : String) :
    lookupA m k = none ↔ k ∉ m.map Prod.fst := by
  induction m with
  | nil => simp [lookupA]
  | cons p rest ih =>
      obtain ⟨a, b⟩ := p
      by_cases hak : a = k
      · subst hak; simp [lookupA]
      · simp [lookupA, hak, ih, Ne.symm hak]

theorem lookupA_mem {β : Type} {m : List (String × β)} {k : String} {v : β}
    (h : lookupA m k = some v) : (k, v) ∈ m := by
  induction m with
  | nil => simp [lookupA] at h
  | cons p rest ih =>
      obtain ⟨a, b⟩ := p
      by_cases hak : a = k
      · subst hak
        simp [lookupA] at h
        subst h
        exact List.mem_cons_self _ _
      · simp [lookupA, hak] at h
        exact List.mem_cons_of_mem _ (ih h)

theorem lookupA_dictRemove_of_none {β : Type} (m : List (String × β)) (k k' : String)
    (h : lookupA m k = none) : lookupA (dictRemove m k') k = none := by
  induction m with
  | nil => simpa [dictRemove] using h
  | cons p rest ih =>
      obtain ⟨a, b⟩ := p
      by_cases hak : a = k
      · subst hak; simp [lookupA] at h
      · have h' : lookupA rest k = none := by simpa [lookupA, hak] using h
        by_cases hk' : a = k'
        · simpa [dictRemove, hk'] using h'
        · simp [dictRemove, hk', lookupA, hak]
          exact ih h'

theorem lookupA_dictRemove_ne {β : Type} (m : List (String × β)) (k k' : String)
    (hne : k ≠ k') : lookupA (dictRemove m k') k = lookupA m k := by
  induction m with
  | nil => simp [dictRemove]
  | cons p rest ih =>
      obtain ⟨a, b⟩ := p
      by_cases hk' : a = k'
      · subst hk'
        simp [dictRemove, lookupA, Ne.symm hne]
      · by_cases hak : a = k <;> simp [dictRemove, hk', lookupA, hak, ih, hne]

theorem lookupA_dictRemove_self {β : Type} (m : List (String × β)) (k : String)
    (hnd : (m.map Prod.fst).Nodup) : lookupA (dictRemove m k) k = none := by
  induction m with
  | nil => simp [dictRemove, lookupA]
  | cons p rest ih =>
      obtain ⟨a, b⟩ := p
      rw [List.map_cons, List.nodup_cons] at hnd
      by_cases hak : a = k
      · subst hak
        simp only [dictRemove, if_pos rfl]
        exact (lookupA_eq_none_iff _ _).mpr hnd.1
      · simp [dictRemove, hak, lookupA]
        exact ih hnd.2

theorem dictRemove_sublist {β : Type} (m : List (String × β)) (k : String) :
    List.Sublist (dictRemove m k) m := by
  induction m with
  | nil => simp [dictRemove]
  | cons p rest ih =>
      obtain ⟨a, b⟩ := p
      by_cases hak : a = k
      · rw [dictRemove, if_pos hak]
        exact List.sublist_cons_self (a, b) rest
      · rw [dictRemove, if_neg hak]
        exact List.Sublist.cons₂ (a, b) ih

theorem dictRemove_keys_nodup {β : Type} (m : List (String × β)) (k : String)
    (hnd : (m.map Prod.fst).Nodup) : ((dictRemove m k).map Prod.fst).Nodup :=
  List.Nodup.sublist (List.Sublist.map Prod.fst (dictRemove_sublist m k)) hnd

theorem mem_of_mem_dictRemove {β : Type} {m : List (String × β)} {k : String}
    {p : String × β} (h : p ∈ dictRemove m k) : p ∈ m :=
  (dictRemove_sublist m k).subset h

/-! ### Lemmas about the identity function -/

/-- Sanity check of the SHA-256 model against the standard test vector
for the message `abc`. -/
theorem sha256_abc_check :
    sha256HexChars (utf8Bytes "abc")
      = "ba7816bf8f01cfea414140de5dae2223b00361a396177a9cb410ff61f20015ad".data := by
  decide

theorem toHexFixed_length (d : Nat) : ∀ v, (toHexFixed v d).length = d := by
  induction d with
  | zero => intro v; rfl
  | succ d ih => intro v; simp [toHexFixed, ih]

theorem sha256HexChars_length (m : List Nat) : (sha256HexChars m).length = 64 := by
  unfold sha256HexChars sha256Words
  simp [toHexFixed_length]

theorem generate_hash_length (code name : String) : (generate_hash code name).length = 8 := by
  unfold generate_hash
  show (List.take 8 _).length = 8
  rw [List.length_take, sha256HexChars_length]
  decide

theorem generate_hash_ne_empty (code name : String) : generate_hash code name ≠ "" := by
  intro h
  have h8 := congrArg String.length h
  rw [generate_hash_length] at h8
  exact absurd h8 (by decide)

theorem hexChar_isHex : ∀ n < 16, isHexCh (hexChar n) = true := by decide

theorem toHexFixed_all_hex (d : Nat) : ∀ v, (toHexFixed v d).all isHexCh = true := by
  induction d with
  | zero => intro v; rfl
  | succ d ih =>
      intro v
      simp [toHexFixed, List.all_append, ih]
      exact hexChar_isHex _ (Nat.mod_lt _ (by norm_num))

theorem sha256HexChars_all_hex (m : List Nat) : (sha256HexChars m).all isHexCh = true := by
  unfold sha256HexChars sha256Words
  simp [List.all_append, toHexFixed_all_hex]

theorem take_all {α : Type} (p : α → Bool) (l : List α) (n : Nat)
    (h : l.all p = true) : (l.take n).all p = true := by
  rw [List.all_eq_true] at *
  intro x hx
  exact h x (List.mem_of_mem_take hx)

theorem generate_hash_all_hex (code name : String) :
    (generate_hash code name).data.all isHexCh = true := by
  unfold generate_hash
  exact take_all _ _ _ (sha256HexChars_all_hex _)

/-! ### Claim C2 -/

/-- C2: the Identity Function is deterministic and total, and always
returns the first 8 hexadecimal characters of the SHA-256 hex digest of
the normalized code joined with `|` and the trimmed name: two calls on
the same inputs agree, and the result is an 8-character hex string. -/
theorem claim_c2 (code name : String) :
    generate_hash code name = generate_hash code name
    ∧ generate_hash code name
        = ⟨(sha256HexChars (utf8Bytes
            (dashToEn (removeSpaces (pyStrip code)) ++ "|" ++ pyStrip name))).take 8⟩
    ∧ (generate_hash code name).length = 8
    ∧ (generate_hash code name).data.all isHexCh = true :=
  ⟨rfl, rfl, generate_hash_length code name, generate_hash_all_hex code name⟩

/-! ### Claim C3 -/

/-- C3 counterexample: the claim as stated fails for a valid triple with
an empty code (the data model allows empty codes): `add` succeeds but a
lookup of the empty code finds nothing, because `add_compound` only
updates `stilbar_to_hash` for truthy codes. -/
theorem claim_c3_counterexample : ¬ c3Claim := by
  intro h
  have hx := h ⟨⟨[], []⟩, [], none⟩ "N" "" "S" rfl
  simp [add_compound, AddRes.state, get_compound_by_stilbar, lookupA] at hx

/-- C3 amended: for every valid triple with a **nonempty** code whose
computed identity is fresh, `add` followed by a lookup of that code
returns the structure that was added. -/
theorem claim_c3_amended (sys : SysState) (name code smiles : String)
    (hcode : code ≠ "")
    (hfresh : lookupA sys.mem.compounds (generate_hash code name) = none) :
    (add_compound sys name code smiles true).isOk = true
    ∧ (get_compound_by_stilbar (add_compound sys name code smiles true).state.mem code).map
        (fun d => d.smiles) = some smiles := by
  simp only [add_compound, hfresh, Option.isSome_none, Bool.false_eq_true, if_false,
    if_pos hcode, if_true, AddRes.isOk, AddRes.state, get_compound_by_stilbar]
  rw [lookupA_dictInsert_self]
  simp [generate_hash_ne_empty, lookupA_dictInsert_self]

/-- C3 witness: concrete instance of the amended claim on an empty store. -/
theorem claim_c3_witness :
    (("C" : String) ≠ ""
     ∧ lookupA (⟨⟨[], []⟩, [], none⟩ : SysState).mem.compounds (generate_hash "C" "N") = none)
    ∧ ((add_compound ⟨⟨[], []⟩, [], none⟩ "N" "C" "S" true).isOk = true
       ∧ (get_compound_by_stilbar
            (add_compound ⟨⟨[], []⟩, [], none⟩ "N" "C" "S" true).state.mem "C").map
          (fun d => d.smiles) = some "S") :=
  ⟨⟨by decide, rfl⟩, claim_c3_amended ⟨⟨[], []⟩, [], none⟩ "N" "C" "S" (by decide) rfl⟩

/-! ### Claim C5 -/

/-- C5 counterexample: for `add`, a failed CSV write leaves the in-memory
index already containing the new record, refuting atomicity as claimed. -/
theorem claim_c5_counterexample : ¬ c5Claim := by
  intro h
  have h1 := h.1 ⟨⟨[], []⟩, [], none⟩ "N" "C" "S"
  simp [add_compound, AddRes.state, lookupA, dictInsert,
    show ("C" : String) ≠ "" by decide] at h1

/-- C5 amended: `delete` is atomic with respect to the in-memory index (a
failed write of the filtered table leaves both the index and the table
file unchanged), but `add` is not: the index is updated before the CSV
write, so a failed add write leaves the index in the post-insert state
while the file is unchanged. -/
theorem claim_c5_amended :
    (∀ (sys : SysState) (hash_keys : List String),
       (delete_compounds sys hash_keys false).2.mem = sys.mem
       ∧ (delete_compounds sys hash_keys false).2.file = sys.file)
    ∧ (∀ (sys : SysState) (name code smiles : String),
         lookupA sys.mem.compounds (generate_hash code name) = none →
           add_compound sys name code smiles false
             = .err "Failed to add to CSV: write error"
                 ⟨⟨dictInsert sys.mem.compounds (generate_hash code name)
                     ⟨generate_hash code name, name, code, smiles,
                      toString (sys.mem.compounds.length + 1)⟩,
                   if code ≠ "" then
                     dictInsert sys.mem.stilbar_to_hash code (generate_hash code name)
                   else sys.mem.stilbar_to_hash⟩,
                  sys.file, sys.backup⟩) := by
  constructor
  · intro sys hash_keys
    by_cases h : (hash_keys.filterMap (fun k => lookupA sys.mem.compounds k)).isEmpty
    · simp [delete_compounds, h]
    · simp [delete_compounds, h]
  · intro sys name code smiles hfresh
    simp [add_compound, hfresh]

/-- C5 witness: concrete instances of both halves of the amended claim. -/
theorem claim_c5_witness :
    ((delete_compounds ⟨⟨[], []⟩, [], none⟩ ["x"] false).2.mem = (⟨[], []⟩ : Mem)
     ∧ (delete_compounds ⟨⟨[], []⟩, [], none⟩ ["x"] false).2.file = [])
    ∧ (lookupA (⟨⟨[], []⟩, [], none⟩ : SysState).mem.compounds (generate_hash "C" "N") = none
       ∧ add_compound ⟨⟨[], []⟩, [], none⟩ "N" "C" "S" false
           = .err "Failed to add to CSV: write error"
               ⟨⟨dictInsert (⟨⟨[], []⟩, [], none⟩ : SysState).mem.compounds (generate_hash "C" "N")
                   ⟨generate_hash "C" "N", "N", "C", "S",
                    toString ((⟨⟨[], []⟩, [], none⟩ : SysState).mem.compounds.length + 1)⟩,
                 if ("C" : String) ≠ "" then
                   dictInsert (⟨⟨[], []⟩, [], none⟩ : SysState).mem.stilbar_to_hash "C"
                     (generate_hash "C" "N")
                 else (⟨⟨[], []⟩, [], none⟩ : SysState).mem.stilbar_to_hash⟩,
                (⟨⟨[], []⟩, [], none⟩ : SysState).file,
                (⟨⟨[], []⟩, [], none⟩ : SysState).backup⟩) :=
  ⟨claim_c5_amended.1 ⟨⟨[], []⟩, [], none⟩ ["x"],
   rfl, claim_c5_amended.2 ⟨⟨[], []⟩, [], none⟩ "N" "C" "S" rfl⟩

/-! ### Claim C6 -/

/-- C6: when the computed identity already exists in the store, `add`
fails with the duplicate error and leaves the whole state (in-memory
index, file and backup) exactly as it was. -/
theorem claim_c6 (sys : SysState) (name code smiles : String) (writeOk : Bool)
    (hdup : (lookupA sys.mem.compounds (generate_hash code name)).isSome = true) :
    add_compound sys name code smiles writeOk
      = .err ("Compound with StilBAR code " ++ code ++ " already exists (hash: "
              ++ generate_hash code name ++ ")") sys := by
  simp [add_compound, hdup]

/-- C6 witness: adding the same (code, name) pair on a store already
holding its identity fails and changes nothing. -/
theorem claim_c6_witness :
    (lookupA [(generate_hash "C" "N",
        (⟨generate_hash "C" "N", "N", "C", "S", "1"⟩ : CompoundData))]
      (generate_hash "C" "N")).isSome = true
    ∧ add_compound
        ⟨⟨[(generate_hash "C" "N", ⟨generate_hash "C" "N", "N", "C", "S", "1"⟩)], []⟩, [], none⟩
        "N" "C" "S2" true
      = .err ("Compound with StilBAR code " ++ "C" ++ " already exists (hash: "
              ++ generate_hash "C" "N" ++ ")")
          ⟨⟨[(generate_hash "C" "N", ⟨generate_hash "C" "N", "N", "C", "S", "1"⟩)], []⟩, [], none⟩ :=
  have hs : (lookupA [(generate_hash "C" "N",
      (⟨generate_hash "C" "N", "N", "C", "S", "1"⟩ : CompoundData))]
      (generate_hash "C" "N")).isSome = true := by simp [lookupA]
  ⟨hs, claim_c6 _ "N" "C" "S2" true hs⟩

/-! ### Claim C8 -/

/-- C8 counterexample: a row with a structure and a name but an empty
first (`num`) column is skipped by the source (the falsy test on the `num` field),
while the claim's condition (missing code-or-name AND structure) says it
must be loaded. -/
theorem claim_c8_counterexample : ¬ c8Claim := by
  intro h
  obtain ⟨p, hp, -⟩ := h.2 [⟨"", "x", "", "S"⟩] ⟨"", "x", "", "S"⟩ (by simp) (by simp)
  simp [load_compounds, loadStep] at hp

theorem loadStep_isSome_mono (mem : Mem) (r : Row4) (k : String)
    (h : (lookupA mem.compounds k).isSome = true) :
    (lookupA (loadStep mem r).compounds k).isSome = true := by
  unfold loadStep
  by_cases hs : r.num = "" ∨ r.smiles = ""
  · simpa [hs] using h
  · simp only [hs, if_false]
    exact lookupA_isSome_dictInsert _ _ _ _ h

theorem load_foldl_isSome_mono (rows : List Row4) (mem : Mem) (k : String)
    (h : (lookupA mem.compounds k).isSome = true) :
    (lookupA (rows.foldl loadStep mem).compounds k).isSome = true := by
  induction rows generalizing mem with
  | nil => exact h
  | cons r rows ih => exact ih _ (loadStep_isSome_mono _ _ _ h)

theorem load_foldl_mem_isSome (rows : List Row4) (mem : Mem) (r : Row4)
    (hr : r ∈ rows) (h1 : r.num ≠ "") (h2 : r.smiles ≠ "") :
    (lookupA (rows.foldl loadStep mem).compounds (loadHashOf r)).isSome = true := by
  induction rows generalizing mem with
  | nil => cases hr
  | cons a rows ih =>
      rcases List.mem_cons.mp hr with he | hm
      · subst he
        rw [List.foldl_cons]
        apply load_foldl_isSome_mono
        have hcond : ¬(r.num = "" ∨ r.smiles = "") := by
          rintro (h | h)
          · exact h1 h
          · exact h2 h
        simp only [loadStep, hcond, if_false, loadHashOf]
        rw [lookupA_dictInsert_self]
        rfl
      · rw [List.foldl_cons]
        exact ih (loadStep mem a) hm

/-- C8 amended: an absent file loads as an empty store; a row whose `num`
column or whose `smiles` column is falsy is skipped individually (it
leaves the store unchanged); every row with both present is loaded (its
recomputed identity is present in the resulting index). -/
theorem claim_c8_amended :
    load_compounds none = ⟨[], []⟩
    ∧ (∀ (mem : Mem) (r : Row4), r.num = "" ∨ r.smiles = "" → loadStep mem r = mem)
    ∧ (∀ (rows : List Row4) (r : Row4), r ∈ rows → r.num ≠ "" → r.smiles ≠ "" →
        (lookupA (load_compounds (some rows)).compounds (loadHashOf r)).isSome = true) := by
  refine ⟨rfl, ?_, ?_⟩
  · intro mem r h
    simp [loadStep, h]
  · intro rows r hr h1 h2
    exact load_foldl_mem_isSome rows ⟨[], []⟩ r hr h1 h2

/-- C8 witness: a well-formed single-row file loads that row. -/
theorem claim_c8_witness :
    ((⟨"1", "n", "", "S"⟩ : Row4) ∈ [(⟨"1", "n", "", "S"⟩ : Row4)]
     ∧ ("1" : String) ≠ "" ∧ ("S" : String) ≠ "")
    ∧ (lookupA (load_compounds (some [⟨"1", "n", "", "S"⟩])).compounds
        (loadHashOf ⟨"1", "n", "", "S"⟩)).isSome = true :=
  ⟨⟨by simp, by decide, by decide⟩,
   claim_c8_amended.2.2 [⟨"1", "n", "", "S"⟩] ⟨"1", "n", "", "S"⟩ (by simp) (by decide) (by decide)⟩

/-! ### Claim C9 -/

set_option maxHeartbeats 3200000 in
/-- C9 (code bug): for an empty-code record, `add_compound` hashes the
pair of empty code and name whereas `load_compounds` re-hashes the pair `(name, name)` for
the very row `add` wrote, so the identity assigned at creation differs
from the identity recomputed on reload — the record's identity is not
stable across a reload, contradicting the claim (and the stated purpose
of hash-based identification). -/
theorem claim_c9_bug :
    generate_hash "" "N" ≠ generate_hash "N" "N"
    ∧ (add_compound ⟨⟨[], []⟩, [], none⟩ "N" "" "S" true).state.file
        = [⟨generate_hash "" "N", "N", "", "S"⟩]
    ∧ lookupA (load_compounds
          (some (add_compound ⟨⟨[], []⟩, [], none⟩ "N" "" "S" true).state.file)).compounds
        (generate_hash "" "N") = none :=
  ⟨by decide, by decide, by decide⟩

/-! ### Claim C10 -/

/-- C10: adding a record whose code already maps to an older record (with
a different name, hence a fresh identity) succeeds, silently repoints the
code-to-identity mapping at the new record — a lookup by that code now
returns the new structure — while the older record stays reachable only
through its identity. -/
theorem claim_c10 (sys : SysState) (code name2 smiles2 h1 : String) (d1 : CompoundData)
    (hcode : code ≠ "")
    (_hmap : lookupA sys.mem.stilbar_to_hash code = some h1)
    (hold : lookupA sys.mem.compounds h1 = some d1)
    (hfresh : lookupA sys.mem.compounds (generate_hash code name2) = none) :
    (add_compound sys name2 code smiles2 true).isOk = true
    ∧ lookupA (add_compound sys name2 code smiles2 true).state.mem.stilbar_to_hash code
        = some (generate_hash code name2)
    ∧ (get_compound_by_stilbar (add_compound sys name2 code smiles2 true).state.mem code).map
        (fun d => d.smiles) = some smiles2
    ∧ get_compound_by_hash (add_compound sys name2 code smiles2 true).state.mem h1 = some d1 := by
  have hne : generate_hash code name2 ≠ h1 := by
    intro e
    rw [e] at hfresh
    exact absurd (hold.symm.trans hfresh) (by simp)
  simp only [add_compound, hfresh, Option.isSome_none, Bool.false_eq_true, if_false,
    if_pos hcode, if_true, AddRes.isOk, AddRes.state, get_compound_by_stilbar,
    get_compound_by_hash]
  refine ⟨trivial, lookupA_dictInsert_self _ _ _, ?_, ?_⟩
  · rw [lookupA_dictInsert_self]
    simp [generate_hash_ne_empty, lookupA_dictInsert_self]
  · rw [lookupA_dictInsert_ne _ _ _ _ (Ne.symm hne)]
    exact hold

/-- C10 witness: a two-name collision on the same code, on a small
concrete store. -/
theorem claim_c10_witness :
    (("C" : String) ≠ ""
     ∧ lookupA [("C", "h1")] "C" = some "h1"
     ∧ lookupA [("h1", (⟨"h1", "n1", "C", "s1", "1"⟩ : CompoundData))] "h1"
         = some ⟨"h1", "n1", "C", "s1", "1"⟩
     ∧ lookupA [("h1", (⟨"h1", "n1", "C", "s1", "1"⟩ : CompoundData))]
         (generate_hash "C" "n2") = none)
    ∧ ((add_compound ⟨⟨[("h1", ⟨"h1", "n1", "C", "s1", "1"⟩)], [("C", "h1")]⟩, [], none⟩
          "n2" "C" "s2" true).isOk = true
       ∧ lookupA (add_compound ⟨⟨[("h1", ⟨"h1", "n1", "C", "s1", "1"⟩)], [("C", "h1")]⟩, [], none⟩
           "n2" "C" "s2" true).state.mem.stilbar_to_hash "C" = some (generate_hash "C" "n2")
       ∧ (get_compound_by_stilbar
            (add_compound ⟨⟨[("h1", ⟨"h1", "n1", "C", "s1", "1"⟩)], [("C", "h1")]⟩, [], none⟩
              "n2" "C" "s2" true).state.mem "C").map (fun d => d.smiles) = some "s2"
       ∧ get_compound_by_hash
           (add_compound ⟨⟨[("h1", ⟨"h1", "n1", "C", "s1", "1"⟩)], [("C", "h1")]⟩, [], none⟩
             "n2" "C" "s2" true).state.mem "h1" = some ⟨"h1", "n1", "C", "s1", "1"⟩) := by
  have hne : ("h1" : String) ≠ generate_hash "C" "n2" := by
    intro e
    have hl := congrArg String.length e
    rw [generate_hash_length] at hl
    exact absurd hl (by decide)
  have hfresh : lookupA [("h1", (⟨"h1", "n1", "C", "s1", "1"⟩ : CompoundData))]
      (generate_hash "C" "n2") = none := by
    simp [lookupA, hne]
  refine ⟨⟨by decide, by simp [lookupA], by simp [lookupA], hfresh⟩, ?_⟩
  exact claim_c10 ⟨⟨[("h1", ⟨"h1", "n1", "C", "s1", "1"⟩)], [("C", "h1")]⟩, [], none⟩
    "C" "n2" "s2" "h1" ⟨"h1", "n1", "C", "s1", "1"⟩
    (by decide) (by simp [lookupA]) (by simp [lookupA]) hfresh

/-! ### Claim C1 -/

theorem firstSome_eq_none_iff {α : Type} (l : List (Option α)) :
    firstSome l = none ↔ l.all Option.isNone = true := by
  induction l with
  | nil => simp [firstSome]
  | cons o rest ih =>
      cases o with
      | none => simp [firstSome, ih, Option.isNone]
      | some r => simp [firstSome, Option.isNone]

theorem firstSome_eq_some {α : Type} {l : List (Option α)} {r : α}
    (h : firstSome l = some r) : some r ∈ l := by
  induction l with
  | nil => simp [firstSome] at h
  | cons o rest ih =>
      cases o with
      | none =>
          simp only [firstSome] at h
          exact List.mem_cons_of_mem _ (ih h)
      | some x =>
          simp only [firstSome, Option.some.injEq] at h
          subst h
          exact List.mem_cons_self _ _

theorem strat_fst_isSome {α : Type} (o : Option α) (f : α → String) (md : α → Metadata)
    {r : Option String × Metadata}
    (h : o.map (fun x => (some (f x), md x)) = some r) : r.1.isSome = true := by
  rcases o with _ | x
  · simp at h
  · simp only [Option.map_some', Option.some.injEq] at h
    rw [← h]
    rfl

/-- Every successful strategy returns a result whose first component is a
structure (never the not-found marker). -/
theorem stratList_fst_isSome (g : Generator) (input_code : String) :
    ∀ o ∈ stratList g input_code, ∀ r, o = some r → r.1.isSome = true := by
  intro o ho r hr
  subst hr
  simp only [stratList, List.mem_cons, List.mem_singleton, List.not_mem_nil, or_false] at ho
  rcases ho with h | h | h | h | h | h | h
  · unfold tryExact at h
    exact strat_fst_isSome _ _ _ h.symm
  · unfold tryNormalized at h
    split at h
    · exact strat_fst_isSome _ _ _ h.symm
    · exact absurd h.symm (by simp)
  · unfold tryFragment at h
    split at h
    · exact strat_fst_isSome _ _ _ h.symm
    · exact absurd h.symm (by simp)
  · unfold tryNumber at h
    exact strat_fst_isSome _ _ _ h.symm
  · unfold tryDupKey at h
    exact strat_fst_isSome _ _ _ h.symm
  · unfold tryCpd at h
    split at h
    · exact strat_fst_isSome _ _ _ h.symm
    · exact absurd h.symm (by simp)
  · unfold tryMonomer at h
    exact strat_fst_isSome _ _ _ h.symm

/-- C1 amended: the resolver is the fixed-priority cascade of the SEVEN
source strategies (the claim's six plus the `compound_N`-input strategy
between the duplicated-code and monomer-fallback strategies): it returns
the result of the first strategy that succeeds, and returns the
not-found marker exactly when every strategy fails. -/
theorem claim_c1_amended (g : Generator) (input_code : String) :
    generate_smiles g input_code
      = (firstSome (stratList g input_code)).getD
          (noResult g (removeSpaces (pyStrip input_code)))
    ∧ (generate_smiles g input_code).1.isNone
        = (stratList g input_code).all Option.isNone := by
  have heq : generate_smiles g input_code
      = (firstSome (stratList g input_code)).getD
          (noResult g (removeSpaces (pyStrip input_code))) := by
    simp only [generate_smiles, stratList]
    cases h1 : tryExact g (removeSpaces (pyStrip input_code)) with
    | some r => simp [firstSome]
    | none =>
    cases h2 : tryNormalized g (removeSpaces (pyStrip input_code))
        (dashToEn (removeSpaces (pyStrip input_code))) with
    | some r => simp [firstSome]
    | none =>
    cases h3 : tryFragment g (removeSpaces (pyStrip input_code))
        (dashToEn (removeSpaces (pyStrip input_code))) with
    | some r => simp [firstSome]
    | none =>
    cases h4 : tryNumber g (removeSpaces (pyStrip input_code)) with
    | some r => simp [firstSome]
    | none =>
    cases h5 : tryDupKey g (removeSpaces (pyStrip input_code)) with
    | some r => simp [firstSome]
    | none =>
    cases h6 : tryCpd g (removeSpaces (pyStrip input_code)) with
    | some r => simp [firstSome]
    | none =>
    cases h7 : tryMonomer g (removeSpaces (pyStrip input_code)) with
    | some r => simp [firstSome]
    | none => simp [firstSome]
  refine ⟨heq, ?_⟩
  rcases hf : firstSome (stratList g input_code) with _ | r
  · rw [heq, hf, (firstSome_eq_none_iff _).mp hf]
    rfl
  · rw [heq, hf]
    simp only [Option.getD_some]
    have hsome := stratList_fst_isSome g input_code _ (firstSome_eq_some hf) r rfl
    cases hall : (stratList g input_code).all Option.isNone
    · rcases hr1 : r.1 with _ | s
      · rw [hr1] at hsome
        exact absurd hsome (by simp)
      · rfl
    · have := List.all_eq_true.mp hall _ (firstSome_eq_some hf)
      simp at this

/-- C1 counterexample: on a store holding compound number 1, the input
`compound_1` is resolved by the source's `compound_N` strategy, while
the claimed six-strategy cascade returns not-found. -/
theorem claim_c1_counterexample : ¬ c1Claim := by
  intro h
  exact absurd (h ⟨[("1", "S1")], [], []⟩ "compound_1") (by decide)

/-! ### Claim C7 -/

/-- C7 counterexample: numeric inputs are looked up as compound-number
keys (the first CSV column), not as 1-based positions.  On a table whose
stored numbers are 10 and 20, position 1 exists but input `1` is
not found. -/
theorem claim_c7_counterexample :
    ¬ c7Claim (loadGen [["10", "a", "", "SA"], ["20", "b", "", "SB"]]) := by
  intro h
  have hx := h "1" (by decide) (by decide) 1 (by decide) (by decide) ("10", "SA") (by decide)
  exact absurd hx.1 (by decide)

set_option maxHeartbeats 12000000 in
/-- C7 amended: a purely numeric input is resolved as a stored
compound-number key; when the stored numbers are exactly 1..62 in
insertion order (the claimed 62-record scenario) this coincides with the
1-based position into the stable record order: each input `k` for
1 ≤ k ≤ 62 returns the k-th record's structure with confidence 1.0, and
the out-of-range input `200` is not found. -/
theorem claim_c7_amended :
    (∀ k : Fin 62,
       gen62.compound_number_to_smiles[(k : Nat)]?
           = some (toString ((k : Nat) + 1), "S" ++ toString ((k : Nat) + 1))
       ∧ (generate_smiles gen62 (toString ((k : Nat) + 1))).1
           = some ("S" ++ toString ((k : Nat) + 1))
       ∧ mconf (generate_smiles gen62 (toString ((k : Nat) + 1))).2 = 1
       ∧ mmethod (generate_smiles gen62 (toString ((k : Nat) + 1))).2
           = "compound_number_lookup")
    ∧ (generate_smiles gen62 "200").1 = none :=
  ⟨by decide, by decide⟩

/-! ### Claim C4 -/

theorem delLoop_none_mono (cs : List CompoundData) (mem : Mem) (acc : List DelEntry)
    (k : String) (h : lookupA mem.compounds k = none) :
    lookupA (delLoop cs mem acc).2.1.compounds k = none := by
  induction cs generalizing mem acc with
  | nil => exact h
  | cons c rest ih =>
      unfold delLoop
      by_cases hc : (lookupA mem.compounds c.hash).isSome = true
      · simp only [hc, if_true]
        exact ih _ _ (lookupA_dictRemove_of_none _ _ _ h)
      · simp only [hc, if_false]
        exact h

/-- Under the reachable-state invariant, the in-memory removal loop never
raises and removes exactly the requested records. -/
theorem delLoop_removes (cs : List CompoundData) (mem : Mem) (acc : List DelEntry)
    (h1 : ∀ c ∈ cs, lookupA mem.compounds c.hash = some c)
    (h2 : (cs.map (fun c => c.hash)).Nodup)
    (h3 : (mem.compounds.map Prod.fst).Nodup) :
    (delLoop cs mem acc).1 = none
    ∧ ∀ c ∈ cs, lookupA (delLoop cs mem acc).2.1.compounds c.hash = none := by
  induction cs generalizing mem acc with
  | nil => exact ⟨rfl, by simp⟩
  | cons c rest ih =>
      have hc : (lookupA mem.compounds c.hash).isSome = true := by
        rw [h1 c (List.mem_cons_self _ _)]; rfl
      rw [List.map_cons, List.nodup_cons] at h2
      unfold delLoop
      simp only [hc, if_true]
      have h1' : ∀ c' ∈ rest,
          lookupA (dictRemove mem.compounds c.hash) c'.hash = some c' := by
        intro c' hc'
        have hne : c'.hash ≠ c.hash := by
          intro e
          exact h2.1 (e ▸ List.mem_map_of_mem (fun x => x.hash) hc')
        rw [lookupA_dictRemove_ne _ _ _ hne]
        exact h1 c' (List.mem_cons_of_mem _ hc')
      have h3' : ((dictRemove mem.compounds c.hash).map Prod.fst).Nodup :=
        dictRemove_keys_nodup _ _ h3
      obtain ⟨hA, hB⟩ := ih
        ⟨dictRemove mem.compounds c.hash,
         if c.stilbar ≠ "" ∧ (lookupA mem.stilbar_to_hash c.stilbar).isSome then
           dictRemove mem.stilbar_to_hash c.stilbar
         else mem.stilbar_to_hash⟩
        (acc ++ [⟨c.hash, c.name, c.stilbar⟩]) h1' h2.2 h3'
      refine ⟨hA, ?_⟩
      intro c' hc'
      rcases List.mem_cons.mp hc' with he | hm
      · subst he
        exact delLoop_none_mono _ _ _ _ (lookupA_dictRemove_self _ _ h3)
      · exact hB c' hm

theorem errors0_mem (keys : List String) (m : Mem) (k : String) (hk : k ∈ keys)
    (h : lookupA m.compounds k = none) :
    ("Hash not found: " ++ k) ∈ keys.filterMap
      (fun k' => if (lookupA m.compounds k').isSome then none
                 else some ("Hash not found: " ++ k')) := by
  apply List.mem_filterMap.mpr
  exact ⟨k, hk, by simp [h]⟩

theorem filterMap_lookup_hash (keys : List String) (m : Mem)
    (hwf : ∀ p ∈ m.compounds, p.2.hash = p.1) :
    ∀ c ∈ keys.filterMap (fun k => lookupA m.compounds k),
      lookupA m.compounds c.hash = some c := by
  intro c hc
  obtain ⟨k, _, he⟩ := List.mem_filterMap.mp hc
  have hhash : c.hash = k := hwf (k, c) (lookupA_mem he)
  rw [hhash]
  exact he

theorem filterMap_hashes_eq (keys : List String) (m : Mem)
    (hwf : ∀ p ∈ m.compounds, p.2.hash = p.1) :
    (keys.filterMap (fun k => lookupA m.compounds k)).map (fun c => c.hash)
      = keys.filter (fun k => (lookupA m.compounds k).isSome) := by
  induction keys with
  | nil => rfl
  | cons k rest ih =>
      cases hk : lookupA m.compounds k with
      | none => simp [List.filterMap_cons, hk, List.filter_cons, ih]
      | some c =>
          have hh : c.hash = k := hwf (k, c) (lookupA_mem hk)
          simp [List.filterMap_cons, hk, List.filter_cons, ih, hh]

/-- C4: over any duplicate-free batch of identities (the spec's interface
takes a set), each absent identity is recorded as a non-fatal error while
deletion of the present ones proceeds; when at least one requested
identity is present, the pre-deletion table is kept as the backup and the
filtered table replaces the file; when none is present the operation
reports failure and the whole state is untouched. -/
theorem claim_c4 (sys : SysState) (hash_keys : List String)
    (hnd : hash_keys.Nodup) (hwf : WFMem sys.mem) :
    (∀ k ∈ hash_keys, lookupA sys.mem.compounds k = none →
        ("Hash not found: " ++ k) ∈ (delete_compounds sys hash_keys true).1.errors)
    ∧ ((∃ k ∈ hash_keys, (lookupA sys.mem.compounds k).isSome = true) →
        (delete_compounds sys hash_keys true).1.success = true
        ∧ (delete_compounds sys hash_keys true).2.backup = some sys.file
        ∧ (delete_compounds sys hash_keys true).2.file
            = csvFilter sys.file (delTriples sys.mem hash_keys)
        ∧ ∀ k ∈ hash_keys, (lookupA sys.mem.compounds k).isSome = true →
            lookupA (delete_compounds sys hash_keys true).2.mem.compounds k = none)
    ∧ ((∀ k ∈ hash_keys, lookupA sys.mem.compounds k = none) →
        (delete_compounds sys hash_keys true).1.success = false
        ∧ (delete_compounds sys hash_keys true).2 = sys) := by
  by_cases hemp :
      (hash_keys.filterMap (fun k => lookupA sys.mem.compounds k)).isEmpty = true
  · have hall : ∀ k ∈ hash_keys, lookupA sys.mem.compounds k = none := by
      intro k hk
      exact List.filterMap_eq_nil_iff.mp (List.isEmpty_iff.mp hemp) k hk
    refine ⟨?_, ?_, ?_⟩
    · intro k hk hnone
      simp only [delete_compounds, hemp, if_true]
      exact List.mem_append_left _ (errors0_mem _ _ _ hk hnone)
    · rintro ⟨k, hk, hsome⟩
      rw [hall k hk] at hsome
      exact absurd hsome (by simp)
    · intro _
      simp [delete_compounds, hemp]
  · have h1 := filterMap_lookup_hash hash_keys sys.mem hwf.1
    have h2 : ((hash_keys.filterMap (fun k => lookupA sys.mem.compounds k)).map
        (fun c => c.hash)).Nodup := by
      rw [filterMap_hashes_eq _ _ hwf.1]
      exact hnd.filter _
    obtain ⟨hnone, hrem⟩ := delLoop_removes
      (hash_keys.filterMap (fun k => lookupA sys.mem.compounds k)) sys.mem [] h1 h2 hwf.2
    rcases hdl : delLoop (hash_keys.filterMap (fun k => lookupA sys.mem.compounds k))
        sys.mem [] with ⟨o, mem1, entries⟩
    rw [hdl] at hnone hrem
    simp only at hnone
    subst hnone
    refine ⟨?_, ?_, ?_⟩
    · intro k hk hnonek
      simp only [delete_compounds, hemp, if_false, hdl]
      exact errors0_mem _ _ _ hk hnonek
    · intro _
      simp only [delete_compounds, hemp, if_false, hdl]
      refine ⟨rfl, rfl, rfl, ?_⟩
      intro k hk hsome
      obtain ⟨c, hc⟩ := Option.isSome_iff_exists.mp hsome
      have hcs : c ∈ hash_keys.filterMap (fun k => lookupA sys.mem.compounds k) :=
        List.mem_filterMap.mpr ⟨k, hk, hc⟩
      have hh : c.hash = k := hwf.1 (k, c) (lookupA_mem hc)
      have := hrem c hcs
      simp only at this
      rw [← hh]
      exact this
    · intro hall
      exfalso
      have : (hash_keys.filterMap (fun k => lookupA sys.mem.compounds k)) = [] :=
        List.filterMap_eq_nil_iff.mpr hall
      rw [this] at hemp
      exact hemp rfl

/-- C4 witness: a batch holding one present and one absent identity on a
small concrete store. -/
theorem claim_c4_witness :
    ((["aa", "zz"] : List String).Nodup
     ∧ WFMem (⟨[("aa", ⟨"aa", "n", "c", "s", "1"⟩)], [("c", "aa")]⟩ : Mem))
    ∧ ("Hash not found: " ++ "zz")
        ∈ (delete_compounds
            (⟨⟨[("aa", ⟨"aa", "n", "c", "s", "1"⟩)], [("c", "aa")]⟩,
              [⟨"aa", "n", "c", "s"⟩], none⟩ : SysState) ["aa", "zz"] true).1.errors
    ∧ (delete_compounds
        (⟨⟨[("aa", ⟨"aa", "n", "c", "s", "1"⟩)], [("c", "aa")]⟩,
          [⟨"aa", "n", "c", "s"⟩], none⟩ : SysState) ["aa", "zz"] true).1.success = true
    ∧ (delete_compounds
        (⟨⟨[("aa", ⟨"aa", "n", "c", "s", "1"⟩)], [("c", "aa")]⟩,
          [⟨"aa", "n", "c", "s"⟩], none⟩ : SysState) ["aa", "zz"] true).2.backup
        = some [⟨"aa", "n", "c", "s"⟩]
    ∧ lookupA (delete_compounds
        (⟨⟨[("aa", ⟨"aa", "n", "c", "s", "1"⟩)], [("c", "aa")]⟩,
          [⟨"aa", "n", "c", "s"⟩], none⟩ : SysState) ["aa", "zz"] true).2.mem.compounds "aa"
        = none := by
  have hnd : (["aa", "zz"] : List String).Nodup := by decide
  have hwf : WFMem (⟨[("aa", ⟨"aa", "n", "c", "s", "1"⟩)], [("c", "aa")]⟩ : Mem) :=
    ⟨by decide, by decide⟩
  have hmain := claim_c4
    (⟨⟨[("aa", ⟨"aa", "n", "c", "s", "1"⟩)], [("c", "aa")]⟩,
      [⟨"aa", "n", "c", "s"⟩], none⟩ : SysState) ["aa", "zz"] hnd hwf
  refine ⟨⟨hnd, hwf⟩, ?_, ?_, ?_, ?_⟩
  · exact hmain.1 "zz" (by simp) (by decide)
  · exact (hmain.2.1 ⟨"aa", by simp, by decide⟩).1
  · exact (hmain.2.1 ⟨"aa", by simp, by decide⟩).2.1
  · exact (hmain.2.1 ⟨"aa", by simp, by decide⟩).2.2.2 "aa" (by simp) (by decide)
